import Mathlib

/-
Verification of the overscan-subtraction and trimming pipeline of the
CCD reduction guide notebooks (01.08-Overscan, 02.01-Calibrating-bias-images).

The data model is a calibration image: a 2-D numeric array of detector
counts tagged with an image-type header.  Pixel values are modelled as
rationals, since overscan subtraction via a median can produce
non-integer values.

The pipeline embedded here is the folder-calibration loop of
02.01-Calibrating-bias-images.ipynb:

    for ccd, file_name in files.ccds(imagetyp="BIAS", ...):
        ccd = ccdp.subtract_overscan(ccd, overscan=first_bias[:, 2055:], median=True)
        ccd = ccdp.trim_image(ccd[:, :2048])
        ccd.write(calibrated_data / file_name)

together with the single-image cells above it and the directory-setup
cell calling Path.mkdir.
-/

namespace CCDGuide

/-- Model of a calibration image: a rows by cols array of counts given
as a total function on indices, plus the image-type header value
(the IMAGETYP keyword used by the collection filter). -/
structure Image where
  rows : Nat
  cols : Nat
  data : Nat → Nat → ℚ
  imagetyp : String

/-- Column index 2055, the start of the useful overscan region used in
the subtract_overscan calls of the source (first_bias[:, 2055:]). -/
def overscanStart : Nat := 2055

/-- Column index 2048, the exclusive upper bound of the columns kept by
the trim step of the source (ccd[:, :2048]). -/
def trimEnd : Nat := 2048

/-- Insert a rational into a sorted list, keeping it sorted. -/
def insertSorted (x : ℚ) : List ℚ → List ℚ
  | [] => [x]
  | y :: ys => if x ≤ y then x :: y :: ys else y :: insertSorted x ys

/-- Insertion sort on lists of rationals, used to compute medians. -/
def sortQ : List ℚ → List ℚ
  | [] => []
  | x :: xs => insertSorted x (sortQ xs)

/-- Median of a list of rationals, following numpy.median: sort, take
the middle element for odd length, the mean of the two middle elements
for even length.  The empty list is mapped to 0 (numpy would produce
nan there; no pipeline call reaches that case). -/
def median (xs : List ℚ) : ℚ :=
  let s := sortQ xs
  let n := s.length
  if n % 2 = 1 then s.getD (n / 2) 0
  else (s.getD (n / 2 - 1) 0 + s.getD (n / 2) 0) / 2

/-- Values of row r of an image over the half-open column range
[lo, hi): the pixels img[r, lo:hi] in numpy terms. -/
def rowVals (img : Image) (r lo hi : Nat) : List ℚ :=
  (List.range (hi - lo)).map (fun j => img.data r (lo + j))

/-- Embeds ccdp.subtract_overscan(ccd, overscan=ovSrc[:, lo:], median=True)
with the default overscan_axis=1: for each row, the median of the
overscan-source row over columns lo onward is subtracted from every
pixel of the corresponding row of ccd. -/
def subtract_overscan (ccd ovSrc : Image) (lo : Nat) : Image :=
  { ccd with data := fun r c => ccd.data r c - median (rowVals ovSrc r lo ovSrc.cols) }

/-- Embeds ccdp.trim_image(ccd[:, :keep]): all rows are retained and
only columns 0 to keep-1 remain (numpy slicing clamps at the array
width, hence the min). -/
def trim_image (ccd : Image) (keep : Nat) : Image :=
  { ccd with cols := min ccd.cols keep }

/-- Body of the folder-calibration loop applied to one image: subtract
the per-row overscan median taken from the image first_bias (as the
source code does), then trim to the first 2048 columns. -/
def processOne (firstBias ccd : Image) : Image :=
  trim_image (subtract_overscan ccd firstBias overscanStart) trimEnd

/-- Embeds the filtering done by files.ccds(imagetyp=typ) and
files.files_filtered(imagetyp=typ): the images of the collection whose
image-type header equals the requested type, in collection order. -/
def ccdsFiltered (dir : List (String × Image)) (typ : String) : List (String × Image) :=
  dir.filter (fun fi => fi.2.imagetyp = typ)

/-- Embeds the folder-calibration loop: every BIAS image of the
directory is processed by processOne with the given first_bias image
and written to the output directory under its own file name. -/
def calibrateFolder (dir : List (String × Image)) (firstBias : Image) : List (String × Image) :=
  (ccdsFiltered dir "BIAS").map (fun fi => (fi.1, processOne firstBias fi.2))

/-- Embeds the whole notebook flow around the loop: first_bias is read
from the first entry of files.files_filtered(imagetyp="BIAS") (the
cell first_bias = CCDData.read(raw_biases[0])), then the loop runs.
If the directory holds no bias image the indexing raw_biases[0] fails,
modelled as none. -/
def runNotebook (dir : List (String × Image)) : Option (List (String × Image)) :=
  (ccdsFiltered dir "BIAS").head?.map (fun fb => calibrateFolder dir fb.2)

/-- Value the specification says should be subtracted from row r of an
image: the median of that same image over its own columns 2055 onward.
Stated from the spec wording (the constant subtracted is derived from
a designated sub-region of each image) for comparison with the code
path, which takes the median from first_bias instead. -/
def specOwnOverscanMedian (img : Image) (r : Nat) : ℚ :=
  median (rowVals img r overscanStart img.cols)

/-- Column indices of the pixels read by the overscan statistic of the
loop body: the index set of rowVals over [overscanStart, cols), that
is columns 2055 onward of a cols-wide image. -/
def statCols (cols : Nat) : List Nat :=
  (List.range (cols - overscanStart)).map (fun j => overscanStart + j)

/-- Column indices removed by the trim step from a cols-wide image:
columns trimEnd (2048) onward, the complement of the kept slice
ccd[:, :2048]. -/
def removedCols (cols : Nat) : List Nat :=
  (List.range (cols - trimEnd)).map (fun j => trimEnd + j)

/-! Trace model of the loop.  Each iteration of the folder loop reads
one image, subtracts the overscan, trims, and writes the result; the
loop walks the filtered file list front to back. -/

/-- One observable step of the folder loop, tagged with the file name
it concerns. -/
inductive Event where
  | read : String → Event
  | subtract : String → Event
  | trim : String → Event
  | write : String → Event
deriving DecidableEq, Repr

/-- Steps one loop iteration performs for one file, in source order:
the read done by files.ccds, the subtract_overscan call, the
trim_image call, and the ccd.write call. -/
def fileEvents (f : String) : List Event :=
  [Event.read f, Event.subtract f, Event.trim f, Event.write f]

/-- Full event trace of the folder loop over a list of file names:
the iterations run one after the other in list order. -/
def loopTrace : List String → List Event
  | [] => []
  | f :: rest => fileEvents f ++ loopTrace rest

/-! Error model.  The notebook wraps no call in try/except; each step
can fail with whatever the underlying library raises, and the loop
body chains the steps so that a failure ends the run. -/

/-- Errors the underlying libraries can raise for an input image. -/
inductive PipeError where
  | missingFile : String → PipeError
  | malformedHeader : String → PipeError
  | badRegion : String → PipeError
deriving DecidableEq, Repr

/-- One loop iteration with fallible reading: the file system is a map
from names to either an image or a library error.  The body performs
read, subtract, trim in sequence with no handler, so a read error is
returned as is. -/
def processOneE (fs : String → Except PipeError Image) (firstBias : Image)
    (f : String) : Except PipeError Image := do
  let ccd ← fs f
  pure (trim_image (subtract_overscan ccd firstBias overscanStart) trimEnd)

/-- The folder loop with fallible reading: iterations run in order and
no iteration catches an error, so the first failure aborts the run. -/
def runFolderE (fs : String → Except PipeError Image) (firstBias : Image) :
    List String → Except PipeError (List (String × Image))
  | [] => Except.ok []
  | f :: rest => do
    let img ← processOneE fs firstBias f
    let out ← runFolderE fs firstBias rest
    pure ((f, img) :: out)

/-! Model of the directory-setup cell calibrated_data.mkdir(exists_ok=True). -/

/-- Keyword parameters accepted by pathlib.Path.mkdir in the Python
standard library: mkdir(mode=0o777, parents=False, exist_ok=False). -/
def mkdirAcceptedKwargs : List String := ["mode", "parents", "exist_ok"]

/-- Possible outcomes of a Path.mkdir call in this model. -/
inductive MkdirOutcome where
  | created : MkdirOutcome
  | typeError : MkdirOutcome
  | fileExistsError : MkdirOutcome
deriving DecidableEq, Repr

/-- Semantics of a Path.mkdir call given whether the directory already
exists and the keyword arguments passed (name and boolean value).
Python rejects any unexpected keyword with a TypeError before the body
runs; otherwise mkdir raises FileExistsError when the directory exists
and exist_ok was not passed as true, and succeeds otherwise. -/
def pathMkdir (dirExists : Bool) (kwargs : List (String × Bool)) : MkdirOutcome :=
  if kwargs.any (fun kv => !(mkdirAcceptedKwargs.contains kv.1)) then
    MkdirOutcome.typeError
  else if dirExists && !((kwargs.lookup "exist_ok").getD false) then
    MkdirOutcome.fileExistsError
  else
    MkdirOutcome.created

/-- The setup cell of the notebook: calibrated_data.mkdir(exists_ok=True),
spelled with the keyword exists_ok exactly as in the source. -/
def setupOutputDir (dirExists : Bool) : MkdirOutcome :=
  pathMkdir dirExists [("exists_ok", true)]

/-! Model of the FITS region descriptor carried in the image headers. -/

/-- Rectangular region descriptor as stored in a FITS header keyword
such as BIASSEC: 1-based inclusive ranges, with the column range first
and the row range second (the axis order opposite to numpy). -/
structure FitsSlice where
  colStart : Nat
  colEnd : Nat
  rowStart : Nat
  rowEnd : Nat
deriving DecidableEq, Repr

/-- The BIASSEC descriptor of the LFC images, [2049:2080,1:4127], as
reported in the overscan notebook. -/
def biassecLFC : FitsSlice :=
  { colStart := 2049, colEnd := 2080, rowStart := 1, rowEnd := 4127 }

/-- Translation of a 1-based FITS index to a 0-based Python index. -/
def fitsToPython (i : Nat) : Nat := i - 1

/-- Constant image used as a concrete test input: every pixel holds
the value v, the header type is typ, and the shape is the 4128 by 2080
shape of the LFC frames. -/
def imgConst (v : ℚ) (typ : String) : Image :=
  { rows := 4128, cols := 2080, data := fun _ _ => v, imagetyp := typ }

/-- Concrete first bias frame for tests: all pixels 10. -/
def biasA : Image := imgConst 10 "BIAS"

/-- Concrete second bias frame for tests: all pixels 20, so its own
overscan median differs from that of biasA. -/
def biasB : Image := imgConst 20 "BIAS"

/-- Concrete two-file directory of bias frames. -/
def demoDir : List (String × Image) :=
  [("ccd.001.fits", biasA), ("ccd.002.fits", biasB)]

/-- Concrete fallible file system for tests: file a reads fine, file b
is missing. -/
def demoFS (s : String) : Except PipeError Image :=
  if s = "a" then Except.ok biasA else Except.error (PipeError.missingFile s)

end CCDGuide

namespace CCDGuide

/-! Shared lemmas about the trace model. -/

/-- The trace of the loop has four events per file. -/
theorem loopTrace_length (files : List String) :
    (loopTrace files).length = 4 * files.length := by
  induction files with
  | nil => rfl
  | cons f fs ih =>
    simp only [loopTrace, List.length_append, ih, List.length_cons, fileEvents]
    simp
    ring

/-- Event number 4*i+k of the trace, for k < 4, is event k of file i. -/
theorem loopTrace_getElem? (files : List String) (i k : Nat) (f : String)
    (hk : k < 4) (hf : files[i]? = some f) :
    (loopTrace files)[4 * i + k]? = (fileEvents f)[k]? := by
  induction files generalizing i with
  | nil => simp at hf
  | cons g fs ih =>
    cases i with
    | zero =>
      simp at hf
      subst hf
      rw [loopTrace]
      rw [List.getElem?_append_left]
      · simp
      · simpa [fileEvents] using hk
    | succ i =>
      simp at hf
      rw [loopTrace]
      rw [List.getElem?_append_right]
      · have h4 : 4 * (i + 1) + k - (fileEvents g).length = 4 * i + k := by
          simp [fileEvents]; omega
        rw [h4]
        exact ih i hf
      · simp [fileEvents]; omega

/-- Counting one kind of event for file f in the trace counts the
occurrences of f in the file list. -/
theorem count_loopTrace (files : List String) (f : String) :
    (loopTrace files).count (Event.read f) = files.count f ∧
    (loopTrace files).count (Event.subtract f) = files.count f ∧
    (loopTrace files).count (Event.trim f) = files.count f ∧
    (loopTrace files).count (Event.write f) = files.count f := by
  induction files with
  | nil => simp [loopTrace]
  | cons g fs ih =>
    obtain ⟨ih1, ih2, ih3, ih4⟩ := ih
    by_cases h : g = f <;>
      simp [loopTrace, fileEvents, List.count_append, List.count_cons, h,
        ih1, ih2, ih3, ih4, List.count_singleton]

/-- C2: for every image processed by the subtract-then-trim pipeline
with the 2080-column input shape, the number of rows is unchanged, the
output has 2048 columns, and the number of columns decreases by
exactly the width of the cropped overscan region. -/
theorem processOne_output_shape (fb img : Image) (h : img.cols = 2080) :
    (processOne fb img).rows = img.rows ∧
    (processOne fb img).cols = 2048 ∧
    img.cols - (processOne fb img).cols = (removedCols img.cols).length := by
  refine ⟨rfl, ?_, ?_⟩ <;>
    simp [processOne, trim_image, subtract_overscan, removedCols, trimEnd, h]

/-- Witness for C2 at a concrete 4128 by 2080 image. -/
theorem processOne_output_shape_witness :
    (processOne biasA biasB).rows = biasB.rows ∧
    (processOne biasA biasB).cols = 2048 ∧
    biasB.cols - (processOne biasA biasB).cols = (removedCols biasB.cols).length :=
  processOne_output_shape biasA biasB rfl

/-- C9: the directory-setup call calibrated_data.mkdir(exists_ok=True)
raises a TypeError on every run, whether or not the output directory
already exists, because exists_ok is not a keyword Path.mkdir accepts
(the parameter is spelled exist_ok). -/
theorem setup_mkdir_always_type_error :
    (∀ dirExists : Bool, setupOutputDir dirExists = MkdirOutcome.typeError) ∧
    pathMkdir true [("exist_ok", true)] = MkdirOutcome.created ∧
    pathMkdir false [("exist_ok", true)] = MkdirOutcome.created := by
  exact ⟨fun d => by cases d <;> rfl, rfl, rfl⟩

/-- C3 counterexample: the sub-region whose median is subtracted
(columns 2055 onward) is not the same region the crop removes (columns
2048 onward); column 2050 of a 2080-column image is removed by the
crop but takes no part in the subtracted statistic. -/
theorem subtract_region_ne_removed_region :
    statCols 2080 ≠ removedCols 2080 ∧
    2050 ∈ removedCols 2080 ∧ ¬ 2050 ∈ statCols 2080 := by
  refine ⟨?_, by decide, by decide⟩
  intro h
  have : (2050 : Nat) ∈ statCols 2080 := h ▸ (by decide : (2050 : Nat) ∈ removedCols 2080)
  exact absurd this (by decide)

/-- C3 amended: the sub-region whose median is subtracted is contained
in the region the subsequent crop removes, for every image width. -/
theorem subtract_region_subset_removed_region (cols c : Nat)
    (hc : c ∈ statCols cols) : c ∈ removedCols cols := by
  simp only [statCols, removedCols, List.mem_map, List.mem_range,
    overscanStart, trimEnd] at hc ⊢
  obtain ⟨j, hj, rfl⟩ := hc
  exact ⟨j + 7, by omega, by omega⟩

/-- Witness for the amended C3 at column 2055 of a 2080-column image. -/
theorem subtract_region_subset_removed_region_witness :
    (2055 : Nat) ∈ removedCols 2080 :=
  subtract_region_subset_removed_region 2080 2055 (by decide)

/-- C10: no column whose pixels feed the overscan statistic survives
the trim; every index in statCols lies at or beyond the output width,
so no pixel that contributed to the subtracted value remains in the
written image. -/
theorem stat_columns_not_in_output (fb img : Image) (c : Nat)
    (hc : c ∈ statCols img.cols) : ¬ c < (processOne fb img).cols := by
  simp only [statCols, List.mem_map, List.mem_range, overscanStart] at hc
  obtain ⟨j, hj, rfl⟩ := hc
  simp only [processOne, trim_image, subtract_overscan, trimEnd]
  omega

/-- Witness for C10 at column 2055 of the concrete bias frame. -/
theorem stat_columns_not_in_output_witness :
    ¬ 2055 < (processOne biasA biasB).cols :=
  stat_columns_not_in_output biasA biasB 2055 (by decide)

/-- C7: the overscan descriptor in the header is 1-based with the
column range first; its column start 2049 translates to 0-based column
index 2048, which is exactly the trim boundary of the pipeline: a
0-based column c lies at or past the translated descriptor start
exactly when the 1-based column c+1 lies at or past 2049, and the
pipeline output of a 2080-column image retains exactly the columns 0
through 2047 of the second axis. -/
theorem biassec_translation :
    fitsToPython biassecLFC.colStart = trimEnd ∧
    (∀ c : Nat, trimEnd ≤ c ↔ biassecLFC.colStart ≤ c + 1) ∧
    ∀ fb img : Image, img.cols = 2080 →
      ∀ c : Nat, c < (processOne fb img).cols ↔ c ≤ 2047 := by
  refine ⟨rfl, ?_, ?_⟩
  · intro c
    simp only [trimEnd, biassecLFC]
    omega
  · intro fb img h c
    simp [processOne, trim_image, subtract_overscan, trimEnd, h]
    omega

/-- Witness for C7 at the concrete bias frames and column 2047. -/
theorem biassec_translation_witness :
    2047 < (processOne biasA biasB).cols ↔ (2047 : Nat) ≤ 2047 :=
  biassec_translation.2.2 biasA biasB rfl 2047

/-- C5: in a loop run over distinct file names, file number i is read
exactly once, transformed by exactly the two stateless operations,
first the overscan subtraction and then the trim, and its result is
written exactly once; events 4i through 4i+3 of the trace are read,
subtract, trim, write of that file in this order. -/
theorem loop_per_file_events (files : List String) (hnd : files.Nodup)
    (i : Nat) (f : String) (hf : files[i]? = some f) :
    (loopTrace files).count (Event.read f) = 1 ∧
    (loopTrace files).count (Event.subtract f) = 1 ∧
    (loopTrace files).count (Event.trim f) = 1 ∧
    (loopTrace files).count (Event.write f) = 1 ∧
    (loopTrace files)[4 * i]? = some (Event.read f) ∧
    (loopTrace files)[4 * i + 1]? = some (Event.subtract f) ∧
    (loopTrace files)[4 * i + 2]? = some (Event.trim f) ∧
    (loopTrace files)[4 * i + 3]? = some (Event.write f) := by
  have hfmem : f ∈ files := List.getElem?_mem hf
  have h1 : files.count f = 1 := List.count_eq_one_of_mem hnd hfmem
  obtain ⟨c1, c2, c3, c4⟩ := count_loopTrace files f
  have e0 := loopTrace_getElem? files i 0 f (by omega) hf
  have e1 := loopTrace_getElem? files i 1 f (by omega) hf
  have e2 := loopTrace_getElem? files i 2 f (by omega) hf
  have e3 := loopTrace_getElem? files i 3 f (by omega) hf
  simp only [fileEvents] at e0 e1 e2 e3
  refine ⟨c1.trans h1, c2.trans h1, c3.trans h1, c4.trans h1, ?_, ?_, ?_, ?_⟩ <;>
    simp_all

/-- Witness for C5 on a concrete two-file run. -/
theorem loop_per_file_events_witness :
    (loopTrace ["a", "b"]).count (Event.read "b") = 1 ∧
    (loopTrace ["a", "b"]).count (Event.subtract "b") = 1 ∧
    (loopTrace ["a", "b"]).count (Event.trim "b") = 1 ∧
    (loopTrace ["a", "b"]).count (Event.write "b") = 1 ∧
    (loopTrace ["a", "b"])[4 * 1]? = some (Event.read "b") ∧
    (loopTrace ["a", "b"])[4 * 1 + 1]? = some (Event.subtract "b") ∧
    (loopTrace ["a", "b"])[4 * 1 + 2]? = some (Event.trim "b") ∧
    (loopTrace ["a", "b"])[4 * 1 + 3]? = some (Event.write "b") :=
  loop_per_file_events ["a", "b"] (by decide) 1 "b" rfl

/-- C8: the loop trace is a fixed-length sequence over the static file
list, and the write of file i occurs at trace position 4i+3, strictly
before position 4(i+1) where file i+1 is read; so every step of an
earlier image precedes every step of a later one. -/
theorem loop_strictly_sequential (files : List String) (i : Nat) (f g : String)
    (hf : files[i]? = some f) (hg : files[i + 1]? = some g) :
    (loopTrace files).length = 4 * files.length ∧
    (loopTrace files)[4 * i + 3]? = some (Event.write f) ∧
    (loopTrace files)[4 * (i + 1)]? = some (Event.read g) ∧
    4 * i + 3 < 4 * (i + 1) := by
  refine ⟨loopTrace_length files, ?_, ?_, by omega⟩
  · simpa [fileEvents] using loopTrace_getElem? files i 3 f (by omega) hf
  · have h0 := loopTrace_getElem? files (i + 1) 0 g (by omega) hg
    simpa [fileEvents] using h0

/-- Witness for C8 on a concrete two-file run. -/
theorem loop_strictly_sequential_witness :
    (loopTrace ["a", "b"]).length = 4 * (["a", "b"] : List String).length ∧
    (loopTrace ["a", "b"])[4 * 0 + 3]? = some (Event.write "a") ∧
    (loopTrace ["a", "b"])[4 * (0 + 1)]? = some (Event.read "b") ∧
    4 * 0 + 3 < 4 * (0 + 1) :=
  loop_strictly_sequential ["a", "b"] 0 "a" "b" rfl rfl

/-- C4: no step of the loop validates inputs or recovers from failure;
when reading file i fails with a library error while the earlier files
read fine, that error propagates uncaught as the result of the whole
run, so there is no catch-or-continue path. -/
theorem errors_propagate_uncaught (fs : String → Except PipeError Image)
    (fb : Image) (files : List String) (i : Nat) (f : String) (e : PipeError)
    (hf : files[i]? = some f) (he : fs f = Except.error e)
    (hok : ∀ j, j < i → ∀ g, files[j]? = some g → ∃ img, fs g = Except.ok img) :
    runFolderE fs fb files = Except.error e := by
  induction files generalizing i with
  | nil => simp at hf
  | cons g rest ih =>
    cases i with
    | zero =>
      simp only [List.getElem?_cons_zero, Option.some.injEq] at hf
      subst hf
      simp [runFolderE, processOneE, he, Bind.bind, Except.bind]
    | succ i =>
      simp only [List.getElem?_cons_succ] at hf
      obtain ⟨img, himg⟩ := hok 0 (Nat.succ_pos i) g (by simp)
      have hrest : runFolderE fs fb rest = Except.error e :=
        ih i hf (fun j hj gj hgj => hok (j + 1) (by omega) gj (by simpa using hgj))
      simp [runFolderE, processOneE, himg, hrest, Bind.bind, Except.bind,
        Pure.pure, Except.pure]

/-- Witness for C4: a concrete run where the second file is missing
ends in exactly that missing-file error. -/
theorem errors_propagate_uncaught_witness :
    runFolderE demoFS biasA ["a", "b"] = Except.error (PipeError.missingFile "b") :=
  errors_propagate_uncaught demoFS biasA ["a", "b"] 1 "b" (PipeError.missingFile "b")
    rfl rfl
    (fun j hj gj hgj => by
      have hj0 : j = 0 := by omega
      subst hj0
      simp only [List.getElem?_cons_zero, Option.some.injEq] at hgj
      subst hgj
      exact ⟨biasA, rfl⟩)

/-- C6: the folder loop writes the selected files in collection order
under their own names, and an output exists for a name exactly when
the directory holds an image of type BIAS under that name; images of
any other type are neither transformed nor written. -/
theorem bias_selection (dir : List (String × Image)) (fb : Image) :
    ((calibrateFolder dir fb).map Prod.fst = (ccdsFiltered dir "BIAS").map Prod.fst) ∧
    ∀ f out, ((f, out) ∈ calibrateFolder dir fb ↔
      ∃ img, (f, img) ∈ dir ∧ img.imagetyp = "BIAS" ∧ out = processOne fb img) := by
  constructor
  · rw [calibrateFolder, List.map_map]
    rfl
  · intro f out
    constructor
    · intro h
      simp only [calibrateFolder, ccdsFiltered, List.mem_map, List.mem_filter,
        decide_eq_true_eq, Prod.mk.injEq] at h
      obtain ⟨⟨a, b⟩, ⟨hm, ht⟩, hfst, hsnd⟩ := h
      subst hfst
      exact ⟨b, hm, ht, hsnd.symm⟩
    · rintro ⟨img, hm, ht, rfl⟩
      simp only [calibrateFolder, ccdsFiltered, List.mem_map, List.mem_filter,
        decide_eq_true_eq]
      exact ⟨(f, img), ⟨hm, ht⟩, rfl⟩

/-- C1: in the folder loop, the constant subtracted from an image is
derived from the image first_bias, not from the image being processed:
on a directory of two constant bias frames with values 10 and 20, the
written second frame holds 20 minus the overscan median of the first
frame (10), not 20 minus its own overscan median (20). -/
theorem second_bias_subtracts_foreign_overscan :
    ((runNotebook demoDir).getD []).length = 2 ∧
    (((runNotebook demoDir).getD []).getD 1 ("", biasA)).1 = "ccd.002.fits" ∧
    (((runNotebook demoDir).getD []).getD 1 ("", biasA)).2.data 0 0
      = biasB.data 0 0 - specOwnOverscanMedian biasA 0 ∧
    specOwnOverscanMedian biasA 0 = 10 ∧
    specOwnOverscanMedian biasB 0 = 20 ∧
    biasB.data 0 0 = 20 ∧
    ¬ (((runNotebook demoDir).getD []).getD 1 ("", biasA)).2.data 0 0
      = biasB.data 0 0 - specOwnOverscanMedian biasB 0 := by
  have hA : specOwnOverscanMedian biasA 0 = 10 := by decide
  have hB : specOwnOverscanMedian biasB 0 = 20 := by decide
  have hcode : (((runNotebook demoDir).getD []).getD 1 ("", biasA)).2.data 0 0
      = biasB.data 0 0 - specOwnOverscanMedian biasA 0 := rfl
  have hval : biasB.data 0 0 = 20 := rfl
  refine ⟨rfl, rfl, hcode, hA, hB, hval, ?_⟩
  rw [hcode, hA, hB, hval]
  norm_num

end CCDGuide
